import Mathlib

/-!
Shallow embedding of the usercanal/sdk-go data-plane core and proofs about it.

The embedding follows the Go sources:
* `internal/batch/batch.go` — the batch accumulator (`Manager`, `NewManager`,
  `Add`, `Flush`);
* `internal/transport/event.go` — per-record and per-batch validation in
  `Sender.SendEvents`;
* `internal/transport/sender.go` — `NewSender` credential handling,
  `sendBatch`, `sendFrame` framing, metrics counters, and the TCP
  connection manager's `resolveEndpoint` / `defaultTCPPort`;
* `internal/convert` — `LogToInternal` and its context-id generation.

Go machine integers are modelled as `Nat`/`Int` with explicit `% 2 ^ 32`
where the code converts to `uint32`.  Network and random effects are passed
in as explicit parameters (the outcome of the send callback, the value drawn
from the random source, the DNS lookup result), so every definition is an
executable function of its inputs.
-/

namespace SdkGo

/-- Result taxonomy of the batch manager operations, following
`types/errors.go`: `ValidationError`, `TimeoutError`, `NetworkError`,
plus the nil-error success case. -/
inductive BRes where
  | ok
  | validationErr
  | timeoutErr
  | networkErr
deriving DecidableEq, Repr

/-- State of `batch.Manager` (batch/batch.go): the pending `events` queue, the
configured `size` threshold and flush `interval` (Go `int` and
`time.Duration`, both modelled as `Int`; the duration is in nanoseconds), the
`failedCount`/`successCount` counters and the two timestamps.  The `send`
callback, mutex, ticker and done channel are not part of the value state:
the callback is passed to each operation explicitly. -/
structure Manager (α : Type) where
  size : Int
  interval : Int
  events : List α
  failedCount : Nat
  successCount : Nat
  lastFlush : Nat
  lastFailure : Nat
deriving DecidableEq, Repr

/-- Constant `defaultBatchSize = 100` from batch/batch.go. -/
def defaultBatchSize : Int := 100

/-- Constant `defaultFlushInterval = 10 * time.Second` from batch/batch.go,
in nanoseconds. -/
def defaultFlushInterval : Int := 10000000000

/-- Embedding of `NewManager` (batch/batch.go).  A nil `send` function
(modelled by the `sendIsNil` flag) panics, modelled as `none`; a
non-positive `size` is replaced by `defaultBatchSize` and a non-positive
`interval` by `defaultFlushInterval`; the queue starts empty and the
counters at zero. -/
def newManagerGo (α : Type) (size interval : Int) (sendIsNil : Bool) :
    Option (Manager α) :=
  if sendIsNil then none
  else
    some { size := if size ≤ 0 then defaultBatchSize else size
           interval := if interval ≤ 0 then defaultFlushInterval else interval
           events := []
           failedCount := 0
           successCount := 0
           lastFlush := 0
           lastFailure := 0 }

/-- Embedding of `Manager.Flush` (batch/batch.go).  `send` is the send
callback (returning `some` error or `none`); `ctxCancelled` is whether the
caller's context has fired by the time the post-send check runs; `arrived`
are the records appended by concurrent `Add` calls while the send callback
ran (they land in the freshly reset queue); `now` is the wall clock used for
the timestamp updates.  On send failure the code runs
`m.events = append(m.events, events...)`, so the failed snapshot is appended
after `arrived`. -/
def Manager.flushGo {α β : Type} (send : List α → Option β)
    (ctxCancelled : Bool) (arrived : List α) (now : Nat) (m : Manager α) :
    BRes × Manager α :=
  if m.events.isEmpty then (.ok, m)
  else
    let snapshot := m.events
    let m1 := { m with events := arrived }
    match send snapshot with
    | some _ =>
        let m2 := { m1 with failedCount := m1.failedCount + snapshot.length
                            lastFailure := now }
        if ctxCancelled then (.timeoutErr, m2)
        else (.networkErr, { m2 with events := m2.events ++ snapshot })
    | none =>
        (.ok, { m1 with successCount := m1.successCount + snapshot.length
                        lastFlush := now })

/-- Embedding of `Manager.Add` (batch/batch.go).  A nil event returns a
validation error; a context already cancelled on entry returns a timeout
error with the state untouched; otherwise the event is appended,
`needsFlush := len(events) >= size` is computed, and when it holds
`Flush` is invoked synchronously with its result propagated. -/
def Manager.addGo {α β : Type} (send : List α → Option β)
    (ctxCancelledAtEntry ctxCancelledAfterSend : Bool) (arrived : List α)
    (now : Nat) (m : Manager α) (event : Option α) : BRes × Manager α :=
  match event with
  | none => (.validationErr, m)
  | some e =>
      if ctxCancelledAtEntry then (.timeoutErr, m)
      else
        let m1 := { m with events := m.events ++ [e] }
        if (m1.events.length : Int) ≥ m1.size then
          m1.flushGo send ctxCancelledAfterSend arrived now
        else (.ok, m1)

/-- Internal transport event record (`internal/transport/types.go`):
`Timestamp uint64`, `EventType`, `UserID []byte`, `Payload []byte`.
Bytes are modelled as lists of `Nat`. -/
structure TEvent where
  timestamp : Nat
  eventType : Nat
  userID : List Nat
  payload : List Nat
deriving DecidableEq, Repr

/-- Modelled from the spec: the constant `MaxBatchItems` is used by
`Sender.SendEvents` but its defining file is not under src; the spec's
configuration table gives `max_batch_items = 1000`. -/
def MaxBatchItems : Nat := 1000

/-- Modelled from the spec: the constant `MaxBatchSize` is used by
`Sender.SendEvents` and `Sender.sendBatch` but its defining file is not
under src; the spec's configuration table gives `max_batch_bytes = 10 MiB`. -/
def MaxBatchSize : Nat := 10 * 1024 * 1024

/-- Modelled from the spec: the constant `MaxEventSize` is used by
`Sender.SendEvents` but its defining file is not under src; the spec's
configuration table gives `max_record_bytes = 1 MiB`. -/
def MaxEventSize : Nat := 1024 * 1024

/-- Validation error cases produced by `Sender.SendEvents`
(internal/transport/event.go), in the order the code tests them. -/
inductive VErr where
  | tooManyItems
  | zeroTimestamp (i : Nat)
  | emptyUserID (i : Nat)
  | emptyPayload (i : Nat)
  | payloadTooLarge (i : Nat)
  | batchTooLarge
deriving DecidableEq, Repr

/-- Per-record checks of `Sender.SendEvents` on the record at index `i`,
in source order: required timestamp, required userID, required payload,
then the per-record payload size cap. -/
def checkEvent (i : Nat) (e : TEvent) : Option VErr :=
  if e.timestamp = 0 then some (.zeroTimestamp i)
  else if e.userID.isEmpty then some (.emptyUserID i)
  else if e.payload.isEmpty then some (.emptyPayload i)
  else if MaxEventSize < e.payload.length then some (.payloadTooLarge i)
  else none

/-- The per-record validation loop of `Sender.SendEvents`, returning the
first failure in queue order (`i` is the index of the head of the
remaining list). -/
def checkEventsFrom : Nat → List TEvent → Option VErr
  | _, [] => none
  | i, e :: rest =>
      match checkEvent i e with
      | some v => some v
      | none => checkEventsFrom (i + 1) rest

/-- Total payload bytes of a batch, the `totalSize` accumulator of
`Sender.SendEvents`. -/
def totalPayloadSize (evs : List TEvent) : Nat :=
  (evs.map (fun e => e.payload.length)).sum

/-- The full validation gate of `Sender.SendEvents`: the item-count cap,
then the per-record loop, then the total payload size cap, in source
order. -/
def validateEvents (evs : List TEvent) : Option VErr :=
  if MaxBatchItems < evs.length then some .tooManyItems
  else
    match checkEventsFrom 0 evs with
    | some v => some v
    | none =>
        if MaxBatchSize < totalPayloadSize evs then some .batchTooLarge
        else none

/-- Error values returned by the sender pipeline
(`SendEvents` / `sendBatch` / `sendFrame`). -/
inductive SendErr where
  | validation (v : VErr)
  | batchDataTooLarge
  | senderClosing
  | network
deriving DecidableEq, Repr

/-- Integer counters of the sender metrics (`types.TransportMetrics` as
updated by sender.go's `recordEventSuccess`, `recordBytesSent` and
`recordFailure`; the derived floating-point averages are not modelled). -/
structure SMetrics where
  eventsSent : Nat
  eventBatchesSent : Nat
  totalBatchesSent : Nat
  bytesSent : Nat
  failedAttempts : Nat
deriving DecidableEq, Repr

/-- Embedding of `recordEventSuccess` (sender.go) restricted to its integer
counters. -/
def recordEventSuccess (st : SMetrics) (eventCount : Nat) : SMetrics :=
  { st with eventsSent := st.eventsSent + eventCount
            eventBatchesSent := st.eventBatchesSent + 1
            totalBatchesSent := st.totalBatchesSent + 1 }

/-- Embedding of `recordBytesSent` (sender.go). -/
def recordBytesSent (st : SMetrics) (bytes : Nat) : SMetrics :=
  { st with bytesSent := st.bytesSent + bytes }

/-- Embedding of `recordFailure` (sender.go) restricted to its counter. -/
def recordFailure (st : SMetrics) : SMetrics :=
  { st with failedAttempts := st.failedAttempts + 1 }

/-- The 4-byte big-endian length header written by `sendFrame`
(sender.go): `binary.BigEndian.PutUint32(lenBuf, uint32(len(data)))`.
The `uint32` conversion truncates modulo `2 ^ 32`. -/
def be32 (n : Nat) : List Nat :=
  let v := n % 2 ^ 32
  [v / 2 ^ 24 % 256, v / 2 ^ 16 % 256, v / 2 ^ 8 % 256, v % 256]

/-- Big-endian value of a byte list, used to read back the frame header. -/
def beVal (bs : List Nat) : Nat :=
  bs.foldl (fun acc b => acc * 256 + b) 0

/-- The frame assembled by `sendFrame`: the 4-byte big-endian length of
`data` followed by `data` itself, copied into one buffer and written in a
single `conn.Write` call. -/
def mkFrame (data : List Nat) : List Nat :=
  be32 data.length ++ data

/-- Outcome of the connection interaction inside `sendFrame`
(sender.go): either no connection is available and the inline reconnect
fails or yields nothing, or the write fails, or the write succeeds. -/
inductive ConnOutcome where
  | noConnReconnectFails
  | noConnStillNil
  | writeFails
  | writeOk
deriving DecidableEq, Repr

/-- Embedding of `Sender.sendFrame` (sender.go).  The returned triple is
the error (if any), the updated metrics, and the list of frames written to
the socket during the call.  On a successful write the metrics gain the
frame length in `bytesSent`; every failure path records a failure and
writes nothing. -/
def sendFrameGo (env : ConnOutcome) (st : SMetrics) (data : List Nat) :
    Option SendErr × SMetrics × List (List Nat) :=
  let frame := mkFrame data
  match env with
  | .noConnReconnectFails => (some .network, recordFailure st, [])
  | .noConnStillNil => (some .network, recordFailure st, [])
  | .writeFails => (some .network, recordFailure st, [])
  | .writeOk => (none, recordBytesSent st frame.length, [frame])

/-- Embedding of `Sender.sendBatch` (sender.go): reject encoded data above
`MaxBatchSize` with a validation error, otherwise wrap it into the
flatbuffer `Batch` container (abstracted as `wrapBatch`, which covers the
api-key, batch-id and schema-type fields) and hand the result to
`sendFrame`. -/
def sendBatchGo (wrapBatch : List Nat → List Nat) (env : ConnOutcome)
    (st : SMetrics) (data : List Nat) :
    Option SendErr × SMetrics × List (List Nat) :=
  if MaxBatchSize < data.length then (some .batchDataTooLarge, st, [])
  else sendFrameGo env st (wrapBatch data)

/-- Embedding of `Sender.SendEvents` (internal/transport/event.go): return
nil on an empty batch; run the validation gate; fail when the sender is
shutting down; encode the event vector (abstracted as `encode`); send via
`sendBatch`; record the event-success metrics only when the whole send
succeeded. -/
def sendEventsGo (encode : List TEvent → List Nat)
    (wrapBatch : List Nat → List Nat) (env : ConnOutcome) (closing : Bool)
    (st : SMetrics) (events : List TEvent) :
    Option SendErr × SMetrics × List (List Nat) :=
  if events.isEmpty then (none, st, [])
  else
    match validateEvents events with
    | some v => (some (.validation v), st, [])
    | none =>
        if closing then (some .senderClosing, st, [])
        else
          match sendBatchGo wrapBatch env st (encode events) with
          | (some e, st2, fs) => (some e, st2, fs)
          | (none, st2, fs) => (none, recordEventSuccess st2 events.length, fs)

/-- Validation error cases of `NewSender` (sender.go). -/
inductive NewSenderErr where
  | emptyApiKey
  | emptyEndpoint
  | invalidFormat
deriving DecidableEq, Repr

/-- Value of one hexadecimal digit, as accepted by Go's
`hex.DecodeString` (0-9, a-f, A-F). -/
def hexVal (c : Char) : Option Nat :=
  if '0' ≤ c ∧ c ≤ '9' then some (c.toNat - 48)
  else if 'a' ≤ c ∧ c ≤ 'f' then some (c.toNat - 87)
  else if 'A' ≤ c ∧ c ≤ 'F' then some (c.toNat - 55)
  else none

/-- Embedding of Go's `hex.DecodeString` on a character list: consume two
hex digits per output byte; odd length or a non-hex digit fails. -/
def hexDecodePairs : List Char → Option (List Nat)
  | [] => some []
  | [_] => none
  | hi :: lo :: rest =>
      match hexVal hi, hexVal lo, hexDecodePairs rest with
      | some h, some l, some bs => some ((h * 16 + l) :: bs)
      | _, _, _ => none

/-- `hex.DecodeString` on a Lean string. -/
def hexDecode (s : String) : Option (List Nat) :=
  hexDecodePairs s.toList

/-- The validation part of `NewSender` (sender.go, the revision owning
`sendBatch`/`sendFrame`): reject an empty api key, an empty endpoint, and a
key that `hex.DecodeString` cannot decode; otherwise the decoded bytes are
stored as the sender's `apiKey` blob and the constructor proceeds to
connect.  No length check is performed on the decoded bytes. -/
def newSenderCheck (apiKey endpoint : String) :
    Except NewSenderErr (List Nat) :=
  if apiKey = "" then .error .emptyApiKey
  else if endpoint = "" then .error .emptyEndpoint
  else
    match hexDecode apiKey with
    | none => .error .invalidFormat
    | some bytes => .ok bytes

/-- Constant `defaultTCPPort` from the TCP connection manager
(sender.go line 1566). -/
def defaultTCPPort : String := "9000"

/-- Index of the last occurrence of a character in a list, mirroring
`last(hostport, ':')` in Go's `net.SplitHostPort`. -/
def lastIdxOf (s : List Char) (c : Char) : Option Nat :=
  match (s.reverse).findIdx? (fun x => x = c) with
  | none => none
  | some j => some (s.length - 1 - j)

/-- Embedding of Go's `net.SplitHostPort`: split on the last colon; an
input without a colon fails ("missing port"); an unbracketed host
containing a further colon fails ("too many colons"); a leading `[` starts
a bracketed host that must be followed directly by the port colon; stray
brackets fail. -/
def splitHostPortL (hp : List Char) : Option (List Char × List Char) :=
  match lastIdxOf hp ':' with
  | none => none
  | some i =>
      if hp.head? = some '[' then
        match hp.findIdx? (fun x => x = ']') with
        | none => none
        | some e =>
            if e + 1 = hp.length then none
            else if e + 1 = i then
              if (hp.drop 1).contains '[' then none
              else if (hp.drop (e + 1)).contains ']' then none
              else some ((hp.drop 1).take (e - 1), hp.drop (i + 1))
            else none
      else
        let host := hp.take i
        if host.contains ':' then none
        else if hp.contains '[' then none
        else if hp.contains ']' then none
        else some (host, hp.drop (i + 1))

/-- The host/port selection at the top of `ConnManager.resolveEndpoint`
(sender.go): start from the literal endpoint with `defaultTCPPort`, and
replace both only when `net.SplitHostPort` succeeds. -/
def resolveHostPort (endpoint : String) : String × String :=
  match splitHostPortL endpoint.toList with
  | some (h, p) => (String.mk h, String.mk p)
  | none => (endpoint, defaultTCPPort)

/-- Go's `net.JoinHostPort`: bracket the host when it contains a colon. -/
def joinHostPort (host port : String) : String :=
  if host.toList.contains ':' then "[" ++ host ++ "]:" ++ port
  else host ++ ":" ++ port

/-- Embedding of `ConnManager.resolveEndpoint` (sender.go): pick host and
port, resolve the host through DNS (the `lookup` parameter models
`net.LookupHost`; `none` is a resolution failure), and store every resolved
IP joined with the chosen port. -/
def resolveEndpointGo (endpoint : String)
    (lookup : String → Option (List String)) : Option (List String) :=
  let hp := resolveHostPort endpoint
  match lookup hp.1 with
  | none => none
  | some ips => some (ips.map (fun ip => joinHostPort ip hp.2))

/-- SDK log record (`types.LogEntry` in types/logs.go).  `timestamp = 0`
models Go's zero `time.Time`; the open-ended `Data` map is modelled as an
association list with opaque string values. -/
structure LogEntry where
  eventType : Nat
  contextID : Nat
  level : Nat
  timestamp : Nat
  source : String
  service : String
  message : String
  data : List (String × String)
deriving DecidableEq, Repr

/-- Schema-side log levels (the flatbuffer `LogLevel` enum referenced by
convert/log.go; its generated file is not under src, so the enum is taken
from the names used there). -/
inductive SchemaLogLevel where
  | emergency | alert | critical | error | warning
  | notice | info | debug | trace
deriving DecidableEq, Repr

/-- Schema-side log event types (the flatbuffer `LogEventType` enum
referenced by convert/log.go). -/
inductive SchemaLogEventType where
  | unknown | log | enrich
deriving DecidableEq, Repr

/-- The `logLevelMap` of convert/log.go: SDK levels 0..8 (types/logs.go)
mapped to the schema levels; any other value is absent. -/
def logLevelMap (l : Nat) : Option SchemaLogLevel :=
  match l with
  | 0 => some .emergency
  | 1 => some .alert
  | 2 => some .critical
  | 3 => some .error
  | 4 => some .warning
  | 5 => some .notice
  | 6 => some .info
  | 7 => some .debug
  | 8 => some .trace
  | _ => none

/-- The `logEventTypeMap` of convert/log.go: `LogUnknown = 0`,
`LogCollect = 1`, `LogEnrich = 2` mapped to the schema event types. -/
def logEventTypeMap (t : Nat) : Option SchemaLogEventType :=
  match t with
  | 0 => some .unknown
  | 1 => some .log
  | 2 => some .enrich
  | _ => none

/-- Internal transport log record (`transport.Log` in
internal/transport/types.go).  The JSON payload assembled by
`marshalPayload` is modelled as the association list it serialises. -/
structure TLog where
  eventType : SchemaLogEventType
  contextID : Nat
  level : SchemaLogLevel
  timestamp : Nat
  source : String
  service : String
  payload : List (String × String)
deriving DecidableEq, Repr

/-- Embedding of `resolveTimestamp` (convert/common.go): a zero time is
replaced by the current wall clock in milliseconds. -/
def resolveTimestamp (t now : Nat) : Nat :=
  if t = 0 then now else t

/-- Embedding of `LogToInternal` (convert/log.go): require non-empty
`Service` and `Source`; map the level and the event type through the two
maps, failing on unknown values; generate a context id (the `gen` parameter
models the value drawn from the random source) only when the caller passed
0; combine `message` and `data` into the payload; resolve the timestamp. -/
def logToInternal (gen now : Nat) (l : LogEntry) : Option TLog :=
  if l.service = "" then none
  else if l.source = "" then none
  else
    match logLevelMap l.level, logEventTypeMap l.eventType with
    | some lv, some et =>
        some { eventType := et
               contextID := if l.contextID = 0 then gen else l.contextID
               level := lv
               timestamp := resolveTimestamp l.timestamp now
               source := l.source
               service := l.service
               payload :=
                 (if l.message = "" then [] else [("message", l.message)])
                   ++ l.data }
    | _, _ => none

/-! ### Helper lemmas -/

/-- The per-record loop returns `none` on the empty batch. -/
theorem checkEventsFrom_nil (i : Nat) : checkEventsFrom i [] = none := rfl

/-- A batch on which the per-record loop fails is rejected by the full
validation gate with some validation error. -/
theorem validateEvents_some_of_checkFail (evs : List TEvent)
    (h : checkEventsFrom 0 evs ≠ none) :
    ∃ v, validateEvents evs = some v := by
  unfold validateEvents
  by_cases hc : MaxBatchItems < evs.length
  · exact ⟨.tooManyItems, by rw [if_pos hc]⟩
  · rw [if_neg hc]
    cases hcf : checkEventsFrom 0 evs with
    | none => exact absurd hcf h
    | some v => exact ⟨v, rfl⟩

/-- A batch whose total payload exceeds the cap is rejected by the full
validation gate with some validation error. -/
theorem validateEvents_some_of_oversize (evs : List TEvent)
    (h : MaxBatchSize < totalPayloadSize evs) :
    ∃ v, validateEvents evs = some v := by
  unfold validateEvents
  by_cases hc : MaxBatchItems < evs.length
  · exact ⟨.tooManyItems, by rw [if_pos hc]⟩
  · rw [if_neg hc]
    cases hcf : checkEventsFrom 0 evs with
    | none => exact ⟨.batchTooLarge, by simp [h]⟩
    | some v => exact ⟨v, rfl⟩

/-- A non-nil list has `isEmpty = false`. -/
theorem isEmpty_false_of_ne_nil {α : Type} {l : List α} (h : l ≠ []) :
    l.isEmpty = false := by
  cases l with
  | nil => exact absurd rfl h
  | cons a t => rfl

/-! ### Claim theorems -/

/-- C1: evaluation of `Manager.flushGo` at the failing input.  The queue
holds records 0 and 1; the send callback fails; record 2 arrives during the
send; the caller's context is not cancelled.  The code's
`m.events = append(m.events, events...)` puts the failed snapshot at the
TAIL: the queue becomes [2, 0, 1], not the [0, 1, 2] that head-reinsertion
would give, so the next flush attempts the later record before the failed
ones. -/
theorem flushGo_requeues_at_tail :
    Manager.flushGo (fun _ => some ()) false [2] 5
        { size := 100, interval := 10000000000, events := [0, 1],
          failedCount := 0, successCount := 0, lastFlush := 0,
          lastFailure := 0 }
      = (.networkErr,
          { size := 100, interval := 10000000000, events := [2, 0, 1],
            failedCount := 2, successCount := 0, lastFlush := 0,
            lastFailure := 5 })
    ∧ ([2, 0, 1] : List Nat) ≠ [0, 1, 2] :=
  ⟨rfl, by decide⟩

/-- C2 counterexample: a batch whose single record has a zero timestamp is
rejected by `sendEventsGo` with a validation error (so the whole batch
fails), yet `Manager.flushGo` — which requeues on any send error — puts the
rejected batch straight back into the queue, refuting "never requeued". -/
theorem sendEvents_validation_requeued_cex :
    validateEvents [⟨0, 0, [1], [1]⟩] = some (.zeroTimestamp 0)
    ∧ (Manager.flushGo
          (fun evs => (sendEventsGo (fun _ => []) id .writeOk false
              ⟨0, 0, 0, 0, 0⟩ evs).1)
          false [] 7
          { size := 100, interval := 10000000000,
            events := [⟨0, 0, [1], [1]⟩], failedCount := 0,
            successCount := 0, lastFlush := 0, lastFailure := 0 }).2.events
        = [⟨0, 0, [1], [1]⟩] :=
  ⟨rfl, rfl⟩

/-- C2 (amended): for every batch handed to the sender in which some record
fails a per-record precondition, the whole batch fails with a validation
error and nothing is written; however, when the accumulator's flush
receives that failure with the caller's context not cancelled, the rejected
batch IS requeued into the queue exactly like any other send failure
(appended after the records that arrived during the send). -/
theorem sendEvents_valfail_whole_batch_requeued
    (encode : List TEvent → List Nat) (wrapBatch : List Nat → List Nat)
    (env : ConnOutcome) (closing : Bool) (st : SMetrics)
    (arrived : List TEvent) (now : Nat) (m : Manager TEvent)
    (h : checkEventsFrom 0 m.events ≠ none) :
    (∃ v, sendEventsGo encode wrapBatch env closing st m.events
        = (some (.validation v), st, []))
    ∧ m.flushGo
        (fun evs => (sendEventsGo encode wrapBatch env closing st evs).1)
        false arrived now
      = (.networkErr,
          { m with events := arrived ++ m.events,
                   failedCount := m.failedCount + m.events.length,
                   lastFailure := now }) := by
  have hne : m.events ≠ [] := by
    intro he
    exact h (by rw [he]; rfl)
  have hemp : m.events.isEmpty = false := isEmpty_false_of_ne_nil hne
  obtain ⟨v, hv⟩ := validateEvents_some_of_checkFail _ h
  have hsend : sendEventsGo encode wrapBatch env closing st m.events
      = (some (.validation v), st, []) := by
    unfold sendEventsGo
    rw [hemp]
    simp only [Bool.false_eq_true, if_false, hv]
  refine ⟨⟨v, hsend⟩, ?_⟩
  unfold Manager.flushGo
  rw [hemp]
  simp only [Bool.false_eq_true, if_false, hsend]

/-- C2 witness: a one-record batch with a zero timestamp is rejected whole
with a validation error, and the un-cancelled flush puts it back into the
queue, counting the failure. -/
theorem sendEvents_valfail_whole_batch_requeued_witness :
    (∃ v, sendEventsGo (fun _ => []) id .writeOk false ⟨0, 0, 0, 0, 0⟩
        [⟨0, 0, [1], [1]⟩] = (some (.validation v), ⟨0, 0, 0, 0, 0⟩, []))
    ∧ Manager.flushGo
        (fun evs => (sendEventsGo (fun _ => []) id .writeOk false
            ⟨0, 0, 0, 0, 0⟩ evs).1)
        false [] 7
        { size := 100, interval := 10000000000,
          events := [⟨0, 0, [1], [1]⟩], failedCount := 0, successCount := 0,
          lastFlush := 0, lastFailure := 0 }
      = (.networkErr,
          { size := 100, interval := 10000000000,
            events := [⟨0, 0, [1], [1]⟩], failedCount := 1,
            successCount := 0, lastFlush := 0, lastFailure := 7 }) :=
  sendEvents_valfail_whole_batch_requeued (fun _ => []) id .writeOk false
    ⟨0, 0, 0, 0, 0⟩ [] 7
    { size := 100, interval := 10000000000, events := [⟨0, 0, [1], [1]⟩],
      failedCount := 0, successCount := 0, lastFlush := 0, lastFailure := 0 }
    (by decide)

/-- C3: evaluation of the `NewSender` validation at the failing input.  The
credential "abcd" is 4 hexadecimal characters, not 32, yet construction
accepts it and stores a 2-byte api-key blob instead of returning a
validation error. -/
theorem newSenderCheck_accepts_short_hex_key :
    newSenderCheck "abcd" "collect.usercanal.com:50000" = .ok [171, 205]
    ∧ ([171, 205] : List Nat).length ≠ 16 :=
  ⟨rfl, by decide⟩

/-- C4 counterexample: for the portless endpoint "collect.usercanal.com"
the connection manager's `resolveEndpoint` selects `defaultTCPPort`, which
is "9000" — not the claimed "50000". -/
theorem resolveHostPort_default_port_not_50000 :
    resolveHostPort "collect.usercanal.com" = ("collect.usercanal.com", "9000")
    ∧ ("9000" : String) ≠ "50000" :=
  ⟨rfl, by decide⟩

/-- C4 (amended): for every configured endpoint from which no port can be
split, the connection manager resolves and joins the resolved addresses
using `defaultTCPPort` = "9000"; for every endpoint with an explicit port,
that port is used. -/
theorem resolveEndpoint_port_selection (endpoint : String)
    (lookup : String → Option (List String)) (ips : List String) :
    (splitHostPortL endpoint.toList = none →
        resolveHostPort endpoint = (endpoint, defaultTCPPort)
        ∧ (lookup endpoint = some ips →
            resolveEndpointGo endpoint lookup
              = some (ips.map (fun ip => joinHostPort ip defaultTCPPort))))
    ∧ ∀ h p, splitHostPortL endpoint.toList = some (h, p) →
        resolveHostPort endpoint = (String.mk h, String.mk p)
        ∧ (lookup (String.mk h) = some ips →
            resolveEndpointGo endpoint lookup
              = some (ips.map (fun ip => joinHostPort ip (String.mk p)))) := by
  constructor
  · intro hsplit
    have hrp : resolveHostPort endpoint = (endpoint, defaultTCPPort) := by
      unfold resolveHostPort
      rw [hsplit]
    refine ⟨hrp, fun hlk => ?_⟩
    unfold resolveEndpointGo
    rw [hrp]
    simp only [hlk]
  · intro h p hsplit
    have hrp : resolveHostPort endpoint = (String.mk h, String.mk p) := by
      unfold resolveHostPort
      rw [hsplit]
    refine ⟨hrp, fun hlk => ?_⟩
    unfold resolveEndpointGo
    rw [hrp]
    simp only [hlk]

/-- C4 witness: the portless production host resolves with port "9000" and
the resolved address list is joined with it; an endpoint with an explicit
port keeps that port. -/
theorem resolveEndpoint_port_selection_witness :
    (resolveHostPort "collect.usercanal.com"
        = ("collect.usercanal.com", defaultTCPPort)
      ∧ resolveEndpointGo "collect.usercanal.com" (fun _ => some ["10.0.0.1"])
          = some ["10.0.0.1:9000"])
    ∧ resolveHostPort "example.com:7000" = ("example.com", "7000") := by
  have h1 := (resolveEndpoint_port_selection "collect.usercanal.com"
      (fun _ => some ["10.0.0.1"]) ["10.0.0.1"]).1 (by decide)
  have h2 := (resolveEndpoint_port_selection "example.com:7000"
      (fun _ => some []) []).2 "example.com".toList "7000".toList (by decide)
  exact ⟨⟨h1.1, h1.2 rfl⟩, h2.1⟩

/-- C5: an `Add` that is not cancelled on entry appends the record; when the
new queue length reaches the size threshold a flush is invoked synchronously
on the appended state and its result (result value and state) is
propagated as the result of `Add`; below the threshold `Add` returns
success with the record enqueued and no flush. -/
theorem addGo_threshold_flush {α β : Type} (send : List α → Option β)
    (ctxAfter : Bool) (arrived : List α) (now : Nat) (m : Manager α)
    (e : α) :
    ((m.events.length + 1 : Int) ≥ m.size →
        m.addGo send false ctxAfter arrived now (some e)
          = Manager.flushGo send ctxAfter arrived now
              { m with events := m.events ++ [e] })
    ∧ ((m.events.length + 1 : Int) < m.size →
        m.addGo send false ctxAfter arrived now (some e)
          = (.ok, { m with events := m.events ++ [e] })) := by
  have key : m.addGo send false ctxAfter arrived now (some e)
      = if ((m.events ++ [e]).length : Int) ≥ m.size then
          Manager.flushGo send ctxAfter arrived now
            { m with events := m.events ++ [e] }
        else (.ok, { m with events := m.events ++ [e] }) := rfl
  have hlen : (((m.events ++ [e]).length : Nat) : Int)
      = (m.events.length : Int) + 1 := by
    simp [List.length_append]
  constructor
  · intro hge
    rw [key, if_pos (by rw [hlen]; exact hge)]
  · intro hlt
    rw [key, if_neg (by rw [hlen]; omega)]

/-- C5 witness: with size threshold 2 and one queued record, adding a second
record triggers the synchronous flush (here a successful send), and with
threshold 10 the same add merely enqueues. -/
theorem addGo_threshold_flush_witness :
    Manager.addGo (β := Unit) (fun _ => none) false false [] 9
        { size := 2, interval := 10000000000, events := [0],
          failedCount := 0, successCount := 0, lastFlush := 0,
          lastFailure := 0 } (some 1)
      = Manager.flushGo (β := Unit) (fun _ => none) false [] 9
          { size := 2, interval := 10000000000, events := [0, 1],
            failedCount := 0, successCount := 0, lastFlush := 0,
            lastFailure := 0 }
    ∧ Manager.addGo (β := Unit) (fun _ => none) false false [] 9
        { size := 10, interval := 10000000000, events := [0],
          failedCount := 0, successCount := 0, lastFlush := 0,
          lastFailure := 0 } (some 1)
      = (.ok,
          { size := 10, interval := 10000000000, events := [0, 1],
            failedCount := 0, successCount := 0, lastFlush := 0,
            lastFailure := 0 }) := by
  constructor
  · have h := (addGo_threshold_flush (β := Unit) (fun _ => none) false [] 9
        { size := 2, interval := 10000000000, events := [0],
          failedCount := 0, successCount := 0, lastFlush := 0,
          lastFailure := 0 } 1).1 (by decide)
    exact h
  · have h := (addGo_threshold_flush (β := Unit) (fun _ => none) false [] 9
        { size := 10, interval := 10000000000, events := [0],
          failedCount := 0, successCount := 0, lastFlush := 0,
          lastFailure := 0 } 1).2 (by decide)
    exact h

/-- C6: an `Add` whose context is already cancelled on entry returns a
timeout error and leaves the accumulator state — queue, success count,
failure count and all other fields — exactly as before. -/
theorem addGo_cancelled_entry {α β : Type} (send : List α → Option β)
    (ctxAfter : Bool) (arrived : List α) (now : Nat) (m : Manager α)
    (e : α) :
    m.addGo send true ctxAfter arrived now (some e) = (.timeoutErr, m) := rfl

/-- C7: an event batch with more than `MaxBatchItems` records or whose
total payload exceeds `MaxBatchSize` bytes is rejected by `SendEvents` with
a validation error before any socket write: no frame is emitted and the
metrics are returned unchanged. -/
theorem sendEventsGo_oversize_rejected (encode : List TEvent → List Nat)
    (wrapBatch : List Nat → List Nat) (env : ConnOutcome) (closing : Bool)
    (st : SMetrics) (events : List TEvent)
    (h : MaxBatchItems < events.length
        ∨ MaxBatchSize < totalPayloadSize events) :
    ∃ v, sendEventsGo encode wrapBatch env closing st events
        = (some (.validation v), st, []) := by
  have hne : events ≠ [] := by
    intro he
    rw [he] at h
    rcases h with hc | hs
    · simp [MaxBatchItems] at hc
    · simp [totalPayloadSize, MaxBatchSize] at hs
  have hemp : events.isEmpty = false := isEmpty_false_of_ne_nil hne
  obtain ⟨v, hv⟩ : ∃ v, validateEvents events = some v := by
    rcases h with hc | hs
    · exact ⟨.tooManyItems, by unfold validateEvents; rw [if_pos hc]⟩
    · exact validateEvents_some_of_oversize events hs
  refine ⟨v, ?_⟩
  unfold sendEventsGo
  rw [hemp]
  simp only [Bool.false_eq_true, if_false, hv]

/-- C7 witness: a batch of 1001 valid records is rejected with a validation
error, the metrics unchanged and no frame emitted. -/
theorem sendEventsGo_oversize_rejected_witness :
    ∃ v, sendEventsGo (fun _ => []) id .writeOk false ⟨0, 0, 0, 0, 0⟩
        (List.replicate 1001 ⟨1, 0, [1], [1]⟩)
      = (some (.validation v), ⟨0, 0, 0, 0, 0⟩, []) :=
  sendEventsGo_oversize_rejected (fun _ => []) id .writeOk false
    ⟨0, 0, 0, 0, 0⟩ (List.replicate 1001 ⟨1, 0, [1], [1]⟩)
    (Or.inl (by rw [List.length_replicate]; norm_num [MaxBatchItems]))

/-- C8: for every encoded batch of `n` bytes (with `n` below the `uint32`
bound), the successful write emits exactly one frame: the 4-byte big-endian
encoding of `n` followed by the `n` batch bytes, `4 + n` bytes in total,
and the metrics gain exactly the frame length in `bytesSent`. -/
theorem sendFrameGo_frame_layout (st : SMetrics) (data : List Nat)
    (h : data.length < 2 ^ 32) :
    sendFrameGo .writeOk st data
      = (none, recordBytesSent st (4 + data.length),
          [be32 data.length ++ data])
    ∧ (be32 data.length ++ data).length = 4 + data.length
    ∧ beVal ((be32 data.length ++ data).take 4) = data.length
    ∧ (be32 data.length ++ data).drop 4 = data := by
  have hlen : (be32 data.length ++ data).length = 4 + data.length := by
    simp only [be32, List.cons_append, List.nil_append, List.length_cons]
    omega
  refine ⟨?_, hlen, ?_, ?_⟩
  · have hfr : sendFrameGo .writeOk st data
        = (none, recordBytesSent st (be32 data.length ++ data).length,
            [be32 data.length ++ data]) := rfl
    rw [hfr, hlen]
  · unfold be32 beVal
    simp only [List.cons_append, List.nil_append, List.take, List.foldl]
    have hmod : data.length % 2 ^ 32 = data.length := Nat.mod_eq_of_lt h
    rw [hmod]
    omega
  · unfold be32
    simp

/-- C8 witness: the 3-byte payload [7, 8, 9] is framed as the 7-byte
message [0, 0, 0, 3, 7, 8, 9], emitted as exactly one frame and counted in
`bytesSent`. -/
theorem sendFrameGo_frame_layout_witness :
    sendFrameGo .writeOk ⟨0, 0, 0, 0, 0⟩ [7, 8, 9]
      = (none, recordBytesSent ⟨0, 0, 0, 0, 0⟩ (4 + ([7, 8, 9] : List Nat).length),
          [be32 ([7, 8, 9] : List Nat).length ++ [7, 8, 9]])
    ∧ (be32 ([7, 8, 9] : List Nat).length ++ [7, 8, 9]).length
        = 4 + ([7, 8, 9] : List Nat).length
    ∧ beVal ((be32 ([7, 8, 9] : List Nat).length ++ [7, 8, 9]).take 4)
        = ([7, 8, 9] : List Nat).length
    ∧ (be32 ([7, 8, 9] : List Nat).length ++ [7, 8, 9]).drop 4 = [7, 8, 9] :=
  sendFrameGo_frame_layout ⟨0, 0, 0, 0, 0⟩ [7, 8, 9] (by decide)

/-- C9: whenever `LogToInternal` succeeds, the converted record carries the
freshly drawn random context id exactly when the caller passed 0, and
carries the caller's context id through unchanged when it was non-zero. -/
theorem logToInternal_contextID (gen now : Nat) (l : LogEntry) (out : TLog)
    (h : logToInternal gen now l = some out) :
    (l.contextID = 0 → out.contextID = gen)
    ∧ (l.contextID ≠ 0 → out.contextID = l.contextID) := by
  unfold logToInternal at h
  by_cases hserv : l.service = ""
  · rw [if_pos hserv] at h
    exact absurd h (by simp)
  · rw [if_neg hserv] at h
    by_cases hsrc : l.source = ""
    · rw [if_pos hsrc] at h
      exact absurd h (by simp)
    · rw [if_neg hsrc] at h
      cases hlv : logLevelMap l.level with
      | none => rw [hlv] at h; exact absurd h (by simp)
      | some lv =>
          cases het : logEventTypeMap l.eventType with
          | none => rw [hlv, het] at h; exact absurd h (by simp)
          | some et =>
              rw [hlv, het] at h
              have hout := (Option.some.injEq _ _).mp h
              constructor
              · intro h0
                rw [← hout]
                simp [h0]
              · intro h0
                rw [← hout]
                simp [h0]

/-- C9 witness: a log entry with caller context id 0 converts to a record
carrying the drawn id 42, and the same entry with context id 77 keeps 77. -/
theorem logToInternal_contextID_witness :
    (TLog.contextID
        ⟨.log, 42, .info, 999, "src", "svc", [("message", "hello")]⟩ = 42)
    ∧ (TLog.contextID
        ⟨.log, 77, .info, 999, "src", "svc", [("message", "hello")]⟩ = 77) := by
  constructor
  · exact (logToInternal_contextID 42 999
      ⟨1, 0, 6, 0, "src", "svc", "hello", []⟩ _ rfl).1 rfl
  · exact (logToInternal_contextID 42 999
      ⟨1, 77, 6, 0, "src", "svc", "hello", []⟩ _ rfl).2 (by decide)

/-- C10: constructing the batch manager never fails on out-of-range
configuration: with a non-nil send callback it always yields a manager
whose size threshold and flush interval are strictly positive, replacing a
non-positive size by the default 100 and a non-positive interval by the
default 10 s, while a nil send callback (and only that) refuses
construction. -/
theorem newManagerGo_normalizes (α : Type) (size interval : Int)
    (m : Manager α) (h : newManagerGo α size interval false = some m) :
    0 < m.size ∧ 0 < m.interval ∧ m.events = []
    ∧ (size ≤ 0 → m.size = defaultBatchSize)
    ∧ (0 < size → m.size = size)
    ∧ (interval ≤ 0 → m.interval = defaultFlushInterval)
    ∧ (0 < interval → m.interval = interval)
    ∧ (newManagerGo α size interval false).isSome = true
    ∧ newManagerGo α size interval true = none := by
  have h' : some ({ size := if size ≤ 0 then defaultBatchSize else size
                    interval := if interval ≤ 0 then defaultFlushInterval
                      else interval
                    events := [], failedCount := 0, successCount := 0,
                    lastFlush := 0, lastFailure := 0 } : Manager α)
      = some m := h
  have hm := Option.some.inj h'
  cases hm
  refine ⟨?_, ?_, rfl, ?_, ?_, ?_, ?_, rfl, rfl⟩
  · dsimp only
    unfold defaultBatchSize
    split <;> omega
  · dsimp only
    unfold defaultFlushInterval
    split <;> omega
  · intro hs; dsimp only; rw [if_pos hs]
  · intro hs; dsimp only; rw [if_neg (by omega)]
  · intro hi; dsimp only; rw [if_pos hi]
  · intro hi; dsimp only; rw [if_neg (by omega)]

/-- C10 witness: size 0 and interval -5 ns are replaced by the defaults
100 and 10 s, the thresholds of the constructed manager are positive, and a
nil send callback refuses construction. -/
theorem newManagerGo_normalizes_witness :
    0 < (Manager.size (α := Nat) ⟨100, 10000000000, [], 0, 0, 0, 0⟩)
    ∧ (Manager.size (α := Nat) ⟨100, 10000000000, [], 0, 0, 0, 0⟩)
        = defaultBatchSize
    ∧ (Manager.interval (α := Nat) ⟨100, 10000000000, [], 0, 0, 0, 0⟩)
        = defaultFlushInterval
    ∧ newManagerGo Nat 0 (-5) true = none := by
  have h := newManagerGo_normalizes Nat 0 (-5)
    ⟨100, 10000000000, [], 0, 0, 0, 0⟩ (by decide)
  exact ⟨h.1, h.2.2.2.1 (by decide), h.2.2.2.2.2.1 (by decide),
    h.2.2.2.2.2.2.2.2⟩

end SdkGo
